import Mathlib

/-!
Verification of the PollsProject repository: per-country Wikipedia poll
scrapers (`Scraper_*_Polls.py`), per-country field cleaners
(`Data_Clean_*.py`) and the dashboard builder (`build_dashboard.py`).

The Python code is shallowly embedded: pandas column operations become
per-cell functions on strings, numeric cells become `Option ℚ`
(`none` = NaN/<NA>), dates become `Option (ℕ × ℕ × ℕ)` (year, month, day;
`none` = NaT), DataFrame-level operations become functions on lists, and
operations that can raise return `Except String`.  Python `sorted` /
pandas `sort_values` are embedded as an insertion sort with a boolean
comparator (stable, like the Python sort; all concrete inputs below have
distinct keys so the algorithm choice is immaterial).
-/

namespace PollsVerify

/-! ### Character/string utilities (Python `str` primitives) -/

/-- Python `str.strip()` on a list of characters: drop whitespace from
both ends. -/
def trimL (l : List Char) : List Char :=
  ((l.dropWhile Char.isWhitespace).reverse.dropWhile Char.isWhitespace).reverse

/-- Python `s.split(" ")`-style split used by the `"%d %b %Y"` date format:
split a character list at every space character (empty fields preserved). -/
def splitSp : List Char → List (List Char)
  | [] => [[]]
  | ' ' :: t => [] :: splitSp t
  | c :: t =>
    match splitSp t with
    | [] => [[c]]
    | f :: fs => (c :: f) :: fs

/-- Python `" ".join(cells)`: join strings with single spaces, as a
character list. -/
def joinSp : List String → List Char
  | [] => []
  | [x] => x.toList
  | x :: xs => x.toList ++ ' ' :: joinSp xs

/-- Numeric value of a list of decimal digit characters (empty list = 0),
as produced by Python `int(...)` on a digit string. -/
def natOfDigits (l : List Char) : ℕ :=
  l.foldl (fun acc c => 10 * acc + (c.toNat - '0'.toNat)) 0

/-- Boolean test: is `n` a contiguous substring of `h`?  Models the Python
test `needle in haystack`. -/
def prefixB : List Char → List Char → Bool
  | [], _ => true
  | _ :: _, [] => false
  | a :: as, b :: bs => a = b && prefixB as bs

/-- Holds (`infixB n h = true`) iff `n` occurs contiguously inside `h`
(Python `n in h` on strings). -/
def infixB : List Char → List Char → Bool
  | n, [] => n.isEmpty
  | n, c :: t => prefixB n (c :: t) || infixB n t

/-- Python, as `containsSub hay needle`: `needle in hay` on `String`s. -/
def containsSub (hay needle : String) : Bool := infixB needle.toList hay.toList

/-! ### Insertion sort with a boolean comparator
(embedding of Python `sorted` / pandas `sort_values`; stable) -/

def insertByB (le : α → α → Bool) (x : α) : List α → List α
  | [] => [x]
  | y :: ys => if le x y then x :: y :: ys else y :: insertByB le x ys

def sortByB (le : α → α → Bool) : List α → List α
  | [] => []
  | x :: xs => insertByB le x (sortByB le xs)

theorem insertByB_perm (le : α → α → Bool) (x : α) (l : List α) :
    List.Perm (insertByB le x l) (x :: l) := by
  induction l with
  | nil => simp [insertByB]
  | cons y ys ih =>
    simp only [insertByB]
    by_cases h : le x y
    · simp [h]
    · simp only [h, Bool.false_eq_true, if_false]
      exact (List.Perm.cons y ih).trans (List.Perm.swap x y ys)

theorem sortByB_perm (le : α → α → Bool) (l : List α) :
    List.Perm (sortByB le l) l := by
  induction l with
  | nil => simp [sortByB]
  | cons x xs ih =>
    exact (insertByB_perm le x (sortByB le xs)).trans (ih.cons x)

theorem insertByB_pairwise (le : α → α → Bool)
    (hTot : ∀ a b, le a b = true ∨ le b a = true)
    (hTrans : ∀ a b c, le a b = true → le b c = true → le a c = true)
    (x : α) (l : List α) (hl : l.Pairwise (fun a b => le a b = true)) :
    (insertByB le x l).Pairwise (fun a b => le a b = true) := by
  induction l with
  | nil => simp [insertByB]
  | cons y ys ih =>
    simp only [insertByB]
    rcases List.pairwise_cons.mp hl with ⟨hy, hys⟩
    by_cases h : le x y
    · simp only [h, if_true]
      refine List.pairwise_cons.mpr ⟨?_, hl⟩
      intro z hz
      rcases hz with _ | hz
      · exact h
      · exact hTrans x y z h (hy z (by assumption))
    · simp only [h, Bool.false_eq_true, if_false]
      refine List.pairwise_cons.mpr ⟨?_, ih hys⟩
      intro z hz
      have hz' : z ∈ x :: ys := (insertByB_perm le x ys).mem_iff.mp hz
      rcases hz' with _ | hz'
      · rcases hTot y x with h' | h'
        · exact h'
        · exact absurd h' (by simpa using h)
      · exact hy z (by assumption)

theorem sortByB_pairwise (le : α → α → Bool)
    (hTot : ∀ a b, le a b = true ∨ le b a = true)
    (hTrans : ∀ a b c, le a b = true → le b c = true → le a c = true)
    (l : List α) :
    (sortByB le l).Pairwise (fun a b => le a b = true) := by
  induction l with
  | nil => simp [sortByB]
  | cons x xs ih => exact insertByB_pairwise le hTot hTrans x _ ih

/-- Lexicographic comparison of character lists by code point
(Python string `<=`), used by pandas when sorting group keys. -/
def lexLeC : List Char → List Char → Bool
  | [], _ => true
  | _ :: _, [] => false
  | a :: as, b :: bs =>
    if a.toNat < b.toNat then true
    else if b.toNat < a.toNat then false
    else lexLeC as bs

def strLeB (a b : String) : Bool := lexLeC a.toList b.toList

/-- Descending comparison on naturals (`sorted(..., reverse=True)`). -/
def natGeB (a b : ℕ) : Bool := Nat.ble b a

/-! ### Python slicing on strings (by characters, as Python does) -/

/-- Python `s[-6:]`: the last 6 characters (whole string if shorter). -/
def pyLast6 (s : String) : List Char :=
  s.toList.drop (s.toList.length - 6)

/-- Python `s[-11:-5]`: characters from index `len-11` (clamped to 0) up to
index `len-5` (clamped to 0), exclusive. -/
def pySlice11to5 (s : String) : List Char :=
  (s.toList.take (s.toList.length - 5)).drop (s.toList.length - 11)

/-! ### Numeric parsing: `pd.to_numeric(..., errors="coerce")` on the
decimal-literal subset actually produced by the cleaned poll cells
(optional sign, integer digits, optional fractional digits).  Unparsable
strings coerce to NaN, i.e. `none`. -/

/-- Discrete part of the numeric parser: sign, integer-part value,
fraction-part value and fraction length.  `none` when the string is not a
decimal literal. -/
def parseParts (l : List Char) : Option (Bool × ℕ × ℕ × ℕ) :=
  let (neg, rest) : Bool × List Char :=
    match l with
    | '-' :: r => (true, r)
    | '+' :: r => (false, r)
    | r => (false, r)
  let ip := rest.takeWhile Char.isDigit
  let rest2 := rest.dropWhile Char.isDigit
  match rest2 with
  | [] => if ip.isEmpty then none else some (neg, natOfDigits ip, 0, 0)
  | '.' :: fp =>
    if fp.all Char.isDigit && !(ip.isEmpty && fp.isEmpty) then
      some (neg, natOfDigits ip, natOfDigits fp, fp.length)
    else none
  | _ => none

/-- Rational value of parsed parts. -/
def ratOfParts (p : Bool × ℕ × ℕ × ℕ) : ℚ :=
  (if p.1 then -1 else 1) * ((p.2.1 : ℚ) + (p.2.2.1 : ℚ) / (10 : ℚ) ^ p.2.2.2)

/-- Model of `pd.to_numeric(s, errors="coerce")` on one cell (decimal-literal
subset): `none` is NaN. -/
def toNumeric (l : List Char) : Option ℚ := (parseParts l).map ratOfParts

/-- pandas `.round(0)`: round half to even (bankers rounding), as numpy
does. -/
def roundHalfEven (q : ℚ) : ℤ :=
  if Int.fract q < 1/2 then ⌊q⌋
  else if (1:ℚ)/2 < Int.fract q then ⌊q⌋ + 1
  else if ⌊q⌋ % 2 = 0 then ⌊q⌋ else ⌊q⌋ + 1

/-! ### Date parsing: `pd.to_datetime(..., format="%d %b %Y")` -/

/-- Three-letter English month abbreviation (case-insensitive, `%b`). -/
def monthNum (l : List Char) : Option ℕ :=
  match l.map Char.toLower with
  | ['j','a','n'] => some 1
  | ['f','e','b'] => some 2
  | ['m','a','r'] => some 3
  | ['a','p','r'] => some 4
  | ['m','a','y'] => some 5
  | ['j','u','n'] => some 6
  | ['j','u','l'] => some 7
  | ['a','u','g'] => some 8
  | ['s','e','p'] => some 9
  | ['o','c','t'] => some 10
  | ['n','o','v'] => some 11
  | ['d','e','c'] => some 12
  | _ => none

def isLeapB (y : ℕ) : Bool := (y % 4 = 0 && y % 100 ≠ 0) || y % 400 = 0

def daysInMonth (y m : ℕ) : ℕ :=
  if m = 2 then (if isLeapB y then 29 else 28)
  else if m = 4 || m = 6 || m = 9 || m = 11 then 30
  else 31

/-- A calendar date as (year, month, day); `pd.Timestamp` restricted to
its date part.  `none` plays the role of `NaT`. -/
abbrev Dmy := ℕ × ℕ × ℕ

/-- Model of `pd.to_datetime(s, format="%d %b %Y")` on one cell: one- or two-digit
day, three-letter month, four-digit year, separated by single spaces,
with the day validated against the month length.  Returns `none` (NaT
under `errors="coerce"`) when the text does not match. -/
def parseDmyL (l : List Char) : Option Dmy :=
  match splitSp l with
  | [d, mon, y] =>
    if (d.length = 1 || d.length = 2) && d.all Char.isDigit
        && y.length = 4 && y.all Char.isDigit then
      match monthNum mon with
      | some m =>
        let dn := natOfDigits d
        let yn := natOfDigits y
        if 1 ≤ dn ∧ dn ≤ daysInMonth yn m then some (yn, m, dn) else none
      | none => none
    else none
  | _ => none

def parseDmy (s : String) : Option Dmy := parseDmyL s.toList

/-! ### Regex `(19|20)\d{2}`: first four-digit year in a string
(`re.search`, scanning left to right) -/

def isYearAt : List Char → Option ℕ
  | a :: b :: c :: d :: _ =>
    if ((a = '1' && b = '9') || (a = '2' && b = '0')) && c.isDigit && d.isDigit then
      some (natOfDigits [a, b, c, d])
    else none
  | _ => none

def searchYearAux : List Char → Option ℕ
  | [] => none
  | c :: t =>
    match isYearAt (c :: t) with
    | some y => some y
    | none => searchYearAux t

/-- Model of `re.search(r"(19|20)\d{2}", s)`: the first match, as a number. -/
def searchYear (s : String) : Option ℕ := searchYearAux s.toList

/-! ### Regex `\b(\d{1,2}\s+[A-Za-z]{3})\b` with `re.findall`
(used by `extract_day_month` in `Data_Clean_Austria.py` and
`Data_Clean_Denmark.py`) -/

/-- Python `\w` (ASCII subset, sufficient for the header/date texts in
play). -/
def isWordChar (c : Char) : Bool := c.isAlphanum || c = '_'

/-- After the digits of `\d{1,2}`, match `\s+[A-Za-z]{3}\b`; returns the
full matched token and the remainder of the input. -/
def dayMonTail (digits rest : List Char) : Option (List Char × List Char) :=
  let sp := rest.takeWhile Char.isWhitespace
  let r2 := rest.dropWhile Char.isWhitespace
  if sp.isEmpty then none
  else
    match r2 with
    | a :: b :: c :: r3 =>
      if a.isAlpha && b.isAlpha && c.isAlpha then
        match r3 with
        | [] => some (digits ++ sp ++ [a, b, c], [])
        | x :: _ => if isWordChar x then none else some (digits ++ sp ++ [a, b, c], r3)
      else none
    | _ => none

/-- Attempt a match of `\b\d{1,2}\s+[A-Za-z]{3}\b` at the current
position; `prevW` records whether the preceding character was a word
character (for the leading `\b`).  Greedy on the digits, with
backtracking from two digits to one. -/
def dayMonAt (prevW : Bool) : List Char → Option (List Char × List Char)
  | [] => none
  | d1 :: rest1 =>
    if prevW || !d1.isDigit then none
    else
      match rest1 with
      | d2 :: rest2 =>
        if d2.isDigit then
          match dayMonTail [d1, d2] rest2 with
          | some r => some r
          | none => dayMonTail [d1] rest1
        else dayMonTail [d1] rest1
      | [] => none

/-- Left-to-right scan collecting non-overlapping matches (`re.findall`).
`fuel` bounds the recursion; it is called with the input length, which
suffices because every step consumes at least one character. -/
def findAllAux (fuel : ℕ) (prevW : Bool) (l : List Char) : List (List Char) :=
  match fuel, l with
  | 0, _ => []
  | _, [] => []
  | fuel + 1, c :: t =>
    match dayMonAt prevW (c :: t) with
    | some (tok, rest) => tok :: findAllAux fuel true rest
    | none => findAllAux fuel (isWordChar c) t

/-- Model of `re.findall(r"\b(\d{1,2}\s+[A-Za-z]{3})\b", s)`. -/
def findAllDayMon (s : String) : List (List Char) :=
  findAllAux s.toList.length false s.toList

/-- Embeds `extract_day_month` from `Data_Clean_Austria.py` lines 40-45 and
`Data_Clean_Denmark.py` lines 40-45: strip the text, take the LAST
day-month token found, or the empty string if none. -/
def extract_day_month (s : String) : List Char :=
  ((findAllDayMon (String.mk (trimL s.toList))).getLast?).getD []

/-! ### Field Cleaner: numeric coercion (`clean_numeric` in the
`Data_Clean_*.py` files)

The pandas chain is
`.astype(str).replace({",": "", "%": "", "–": "", "−": ""}, regex=True)
 .apply(lambda col: col.str.strip()).apply(pd.to_numeric, errors="coerce")`
applied per cell; Austria additionally deletes `?` (its dict also maps
`r"\?"` to `""`).  Each `replace` deletes every occurrence of the
character anywhere in the cell. -/

/-- Delete every occurrence of one character (one entry of the `replace`
dict, applied with `regex=True`). -/
def removeChar (c : Char) (l : List Char) : List Char := l.filter (· ≠ c)

/-- The common deletion set `{",", "%", "–", "−"}`, applied in dict
order (UK, Germany, Italy, Denmark; also the first stage for Austria). -/
def stripCommon (l : List Char) : List Char :=
  removeChar '−' (removeChar '–' (removeChar '%' (removeChar ',' l)))

/-- The Austria deletion set additionally removes literal question marks
(`Data_Clean_Austria.py` line 14). -/
def stripAT (l : List Char) : List Char := removeChar '?' (stripCommon l)

/-- One numeric cell of `clean_numeric` in `Data_Clean_Italy.py` lines
6-14 (identically `Data_Clean_Germany.py` lines 6-13 and
`Data_Clean_Denmark.py` lines 11-18, which all cast to a float dtype):
delete separators/percents/dashes, strip, coerce to float, NaN on
failure. -/
def clean_numeric_cell (s : String) : Option ℚ :=
  toNumeric (trimL (stripCommon s.toList))

/-- One numeric cell of `clean_numeric` in `Data_Clean_Austria.py` lines
11-18 (same pipeline, `?` also deleted). -/
def clean_numeric_cell_AT (s : String) : Option ℚ :=
  toNumeric (trimL (stripAT s.toList))

/-- One numeric cell of `clean_numeric` in `Data_Clean_UK.py` lines 6-13:
same strip/coerce chain but `.astype("Int64")` at the end, which raises a
`TypeError` when a parsed value is not an integer (pandas refuses the
lossy float-to-Int64 cast); NaN becomes `<NA>` (`none`). -/
def clean_numeric_cell_UK (s : String) : Except String (Option ℤ) :=
  match toNumeric (trimL (stripCommon s.toList)) with
  | none => .ok none
  | some q => if q.den = 1 then .ok (some q.num)
              else .error "TypeError: cannot safely cast non-equivalent Float64 to Int64"

/-- The `Sample_size` column in `Data_Clean_Germany.py` lines 14-18 (and
identically `Data_Clean_Austria.py` lines 21-26, `Data_Clean_Denmark.py`
lines 21-26): after the generic float cleaning,
`pd.to_numeric(...).round(0).astype("Int64")`. -/
def sample_size_cell_DE (s : String) : Option ℤ :=
  (clean_numeric_cell s).map roundHalfEven

/-- The Austria `Sample_size` cell (`?` also stripped by the generic pass
that runs first). -/
def sample_size_cell_AT (s : String) : Option ℤ :=
  (clean_numeric_cell_AT s).map roundHalfEven

/-- The Italy `Sample_size` cell: `Data_Clean_Italy.py` has no `Sample_size`
special case, so the column goes through `clean_numeric` only and stays a
float. -/
def sample_size_cell_IT (s : String) : Option ℚ := clean_numeric_cell s

/-! ### Field Cleaner: conducted-date derivation -/

/-- Embeds `Data_Clean_Austria.py` lines 47-53 and `Data_Clean_Denmark.py` lines
47-53: last regex day-month token joined with the year,
`pd.to_datetime(..., format="%d %b %Y", errors="coerce")`. -/
def date_conducted_AT (fieldwork : String) (year : ℕ) : Option Dmy :=
  parseDmyL (extract_day_month fieldwork ++ ' ' :: (toString year).toList)

/-- Embeds `Data_Clean_Italy.py` lines 17-21: `df["Fieldwork date"].str[-6:]`
joined with the year, parsed with `errors="coerce"`. -/
def date_conducted_IT (fieldwork : String) (year : ℕ) : Option Dmy :=
  parseDmyL (pyLast6 fieldwork ++ ' ' :: (toString year).toList)

/-- Embeds `Data_Clean_Germany.py` lines 24-28: `df["Fieldwork date"].str[-11:-5]`
joined with the year, parsed with `errors="coerce"`. -/
def date_conducted_DE (fieldwork : String) (year : ℕ) : Option Dmy :=
  parseDmyL (pySlice11to5 fieldwork ++ ' ' :: (toString year).toList)

/-- Embeds `Data_Clean_UK.py` lines 18-22: `df["Date(s) conducted"].str[-6:]`
joined with the year, but `pd.to_datetime` is called WITHOUT
`errors="coerce"` (the argument is commented out), i.e. with the default
`errors="raise"`: the whole call raises `ValueError` as soon as any row
fails to parse. -/
def uk_to_datetime (rows : List (String × ℕ)) : Except String (List Dmy) :=
  rows.mapM (fun p =>
    match parseDmyL (pyLast6 p.1 ++ ' ' :: (toString p.2).toList) with
    | some d => Except.ok d
    | none => Except.error "ValueError: time data does not match format %d %b %Y")

/-! ### Table Selector (`Scraper_*_Polls.py`)

A parsed document is a list of tables; for selection only the first
the `<th>` texts of the first `<tr>` matter.  `firstTrThTexts = none` models a table
with no `<tr>` at all (`table.find("tr")` returns `None`). -/

structure BsTable where
  firstTrThTexts : Option (List String)
deriving DecidableEq, Repr

/-- Embeds `Scraper_Austria_Polls.py` lines 27-34: selected iff the header text of the first row joined with spaces contains both "Fieldwork date" and
"Lead". -/
def selectedAT (t : BsTable) : Bool :=
  match t.firstTrThTexts with
  | none => false
  | some cells =>
    infixB "Fieldwork date".toList (joinSp cells) && infixB "Lead".toList (joinSp cells)

/-- Embeds `Scraper_Germany_Polls.py` lines 25-38: at least one header cell and
the joined header text contains "Abs.". -/
def selectedDE (t : BsTable) : Bool :=
  match t.firstTrThTexts with
  | none => false
  | some cells => !cells.isEmpty && infixB "Abs.".toList (joinSp cells)

/-- Embeds `Scraper_Denmark_Polls.py` lines 26-35: at least one header cell. -/
def selectedDKhdr (t : BsTable) : Bool :=
  match t.firstTrThTexts with
  | none => false
  | some cells => !cells.isEmpty

/-- Embeds `Scraper_Italy_Polls.py` lines 29-42: the joined header text contains
"Polling firm", "Fieldwork date" and "Sample size". -/
def selectedIThdr (t : BsTable) : Bool :=
  match t.firstTrThTexts with
  | none => false
  | some cells =>
    infixB "Polling firm".toList (joinSp cells)
      && infixB "Fieldwork date".toList (joinSp cells)
      && infixB "Sample size".toList (joinSp cells)

/-- The shared selection skeleton: filter the document's tables by the
country predicate, raising the fatal country `RuntimeError` when no
table matches. -/
def scrapeSelect (sel : BsTable → Bool) (err : String) (ts : List BsTable) :
    Except String (List BsTable) :=
  let chosen := ts.filter sel
  if chosen.isEmpty then .error err else .ok chosen

/-! ### Row Normalizer (`Scraper_Austria_Polls.py` lines 96-99, duplicated
in every scraper): pad a short row with empty strings, truncate a long
one. -/

def normalizeRow (cells : List String) (n : ℕ) : List String :=
  if cells.length < n then cells ++ List.replicate (n - cells.length) ""
  else if n < cells.length then cells.take n
  else cells

/-! ### Year Window Filter (`Scraper_Germany_Polls.py` lines 101-105,
duplicated in every scraper):
`years_found = sorted({y for y, _ in all_rows}, reverse=True)`,
`keep_years = set(years_found[:5])`, then filter. -/

def yearsFound (rows : List (ℕ × List String)) : List ℕ :=
  sortByB natGeB (rows.map Prod.fst).dedup

def keepYears (rows : List (ℕ × List String)) : List ℕ :=
  (yearsFound rows).take 5

def yearWindowFilter (rows : List (ℕ × List String)) : List (ℕ × List String) :=
  rows.filter (fun r => r.1 ∈ keepYears rows)

/-! ### Row Extractor, Denmark (`Scraper_Denmark_Polls.py` lines 40-130)

A `<tr>` is modelled by the texts of its `<th>` cells, its `<td>` cells,
all cells in document order (`tr.find_all(["th","td"])`), the
`data-sort-value` attribute of the first element carrying one
(`tr.find(attrs={"data-sort-value": True})`), and the text of the first
`span.sortkey`. -/

structure DkRow where
  thTexts : List String
  tdTexts : List String
  cellsText : List String
  dataSortValue : Option String
  sortkeyText : Option String
deriving DecidableEq, Repr

structure DkTable where
  rows : List DkRow
deriving DecidableEq, Repr

/-- Fallback 3 of `_extract_year_from_row`: regex year over the joined
row text. -/
def dkYear3 (r : DkRow) : Option ℕ := searchYearAux (joinSp r.cellsText)

/-- Fallback 2: regex year in the `span.sortkey` text, else fallback 3. -/
def dkYear2 (r : DkRow) : Option ℕ :=
  match r.sortkeyText with
  | some sk =>
    match searchYear sk with
    | some y => some y
    | none => dkYear3 r
  | none => dkYear3 r

/-- Embeds `_extract_year_from_row` (`Scraper_Denmark_Polls.py` lines 47-76):
ordered fallback chain data-sort-value / span.sortkey / row text. -/
def dkYearOf (r : DkRow) : Option ℕ :=
  match r.dataSortValue with
  | some sv =>
    match searchYear sv with
    | some y => some y
    | none => dkYear2 r
  | none => dkYear2 r

structure DkState where
  header : Option (List String)
  firstHeaderSkipped : Bool
  acc : List (ℕ × List String)
deriving DecidableEq, Repr

/-- One loop iteration of the Denmark row walk
(`Scraper_Denmark_Polls.py` lines 81-127): skip the first header row,
capture the second as `HeaderSchema`, skip header-like and empty rows,
install a fallback header if none was seen, extract a year (discarding
the row silently on failure), normalize and buffer. -/
def dkStep (s : DkState) (r : DkRow) : DkState :=
  if r.thTexts ≠ [] ∧ s.header = none then
    if s.firstHeaderSkipped = false then { s with firstHeaderSkipped := true }
    else { s with header := some r.cellsText }
  else if r.thTexts ≠ [] ∧ r.tdTexts = [] then s
  else if r.cellsText = [] then s
  else
    let hdr := match s.header with
      | some h => h
      | none => (List.range r.cellsText.length).map (fun i => "col_" ++ toString i)
    let s1 := { s with header := some hdr }
    match dkYearOf r with
    | none => s1
    | some y => { s1 with acc := s1.acc ++ [(y, normalizeRow r.cellsText hdr.length)] }

/-- Rows surviving extraction: the walk runs over the rows of only the
first 4 selected tables (`for table in national_tables[0:4]`). -/
def dkExtract (ts : List DkTable) : List (ℕ × List String) :=
  ((((ts.take 4).map (·.rows)).flatten).foldl dkStep ⟨none, false, []⟩).acc

/-- Follows the words of the claim, for comparison with `dkExtract`: the
same Denmark row walk applied to ALL selected tables of the document,
without the `[0:4]` restriction. -/
def dkExtractAll (ts : List DkTable) : List (ℕ × List String) :=
  (((ts.map (·.rows)).flatten).foldl dkStep ⟨none, false, []⟩).acc

/-- The Denmark table selection on full tables: first `<tr>` exists and has
at least one `<th>`. -/
def selectedDK (t : DkTable) : Bool :=
  match t.rows.head? with
  | none => false
  | some r => !r.thTexts.isEmpty

def dkNoTablesMsg : String := "No national poll tables found."

def dkNoDataMsg : String :=
  "No data rows with year found after filtering. (Page may not have poll rows in the first 4 tables.)"

/-- Embeds `Scraper_Denmark` end to end (modulo network fetch and CSV writing):
select tables, extract rows, fail when nothing survived, filter to the 5
most recent distinct years. -/
def scraperDenmark (ts : List DkTable) : Except String (List (ℕ × List String)) :=
  let sel := ts.filter selectedDK
  if sel.isEmpty then .error dkNoTablesMsg
  else
    let rows := dkExtract sel
    if rows.isEmpty then .error dkNoDataMsg
    else .ok (yearWindowFilter rows)

/-! ### Row Extractor, Italy (`Scraper_Italy_Polls.py` lines 52-89) -/

structure ItRow where
  thTexts : List String
  tdTexts : List String
  firstTdSortValue : Option String
deriving DecidableEq, Repr

structure ItTable where
  rows : List ItRow
deriving DecidableEq, Repr

/-- Embeds `Scraper_Italy_Polls.py` lines 70-76: year from the `data-sort-value`
of the first `<td>`; the row is skipped when the attribute is missing,
empty, shorter than 4 characters or not starting with 4 digits. -/
def itYearOf (sv : Option String) : Option ℕ :=
  match sv with
  | none => none
  | some v =>
    if v.toList.length < 4 then none
    else if (v.toList.take 4).all Char.isDigit then some (natOfDigits (v.toList.take 4))
    else none

structure ItState where
  header : Option (List String)
  acc : List (ℕ × List String)
deriving DecidableEq, Repr

def itTypeErrMsg : String :=
  "TypeError: < not supported between instances of int and NoneType"

/-- One loop iteration of the Italy row walk (`Scraper_Italy_Polls.py`
lines 55-86).  When a year is found while no header row has been seen
yet, the Python code evaluates `len(cells_text) < n_header` with
`n_header = None`, which raises a `TypeError`; that is the `.error`
branch. -/
def itStep (s : ItState) (r : ItRow) : Except String ItState :=
  if r.thTexts ≠ [] ∧ s.header = none then
    .ok { s with header := some r.thTexts }
  else if r.tdTexts = [] then .ok s
  else
    match itYearOf r.firstTdSortValue with
    | none => .ok s
    | some y =>
      match s.header with
      | some h => .ok { s with acc := s.acc ++ [(y, normalizeRow r.tdTexts h.length)] }
      | none => .error itTypeErrMsg

def itExtract (sel : List ItTable) : Except String (List (ℕ × List String)) :=
  (((sel.map (·.rows)).flatten).foldlM itStep ⟨none, []⟩).map (·.acc)

/-- The Italy table selection on full tables (`Scraper_Italy_Polls.py`
lines 29-42). -/
def selectedIT (t : ItTable) : Bool :=
  match t.rows.head? with
  | none => false
  | some r =>
    infixB "Polling firm".toList (joinSp r.thTexts)
      && infixB "Fieldwork date".toList (joinSp r.thTexts)
      && infixB "Sample size".toList (joinSp r.thTexts)

def itNoTablesMsg : String := "No national poll tables found."

def itNoDataMsg : String := "No data rows with data-sort-value year found after filtering."

/-- Embeds `Scraper_Italy` end to end (modulo network fetch and CSV writing). -/
def scraperItaly (ts : List ItTable) : Except String (List (ℕ × List String)) :=
  let sel := ts.filter selectedIT
  if sel.isEmpty then .error itNoTablesMsg
  else
    match itExtract sel with
    | .error e => .error e
    | .ok rows =>
      if rows.isEmpty then .error itNoDataMsg
      else .ok (yearWindowFilter rows)

/-! ### Dashboard Renderer: leading party
(`build_dashboard.py`, `compute_leading_by_country_long`, lines 147-163)

`df_long` is the long-format frame: one row per poll × party.  Countries
(`id_str` groups) are processed independently by every `groupby`
involved, so the embedding works on the slice of a single country. -/

structure LongRow where
  pollId : ℕ
  date : ℕ
  party : String
  value : ℚ
deriving DecidableEq, Repr

/-- pandas `.mean()` of a column. -/
def meanQ (l : List ℚ) : ℚ := l.sum / l.length

/-- pandas `.idxmax()` followed by a label lookup: the first entry (in
the frame order, which `groupby` has sorted by party name) attaining
the maximum value. -/
def argmaxFirst : List (String × ℚ) → Option String
  | [] => none
  | (p, v) :: rest =>
    some ((rest.foldl (fun best x => if best.2 < x.2 then x else best) (p, v)).1)

/-- Embeds `d = df_long.sort_values("Date_conducted")` followed by
`d.groupby("id_str", group_keys=False).tail(10)` on a single country:
the last 10 rows of the date-sorted LONG frame (one row per
poll × party observation). -/
def sortedLast10 (rows : List LongRow) : List LongRow :=
  let sorted := sortByB (fun a b => Nat.ble a.date b.date) rows
  sorted.drop (sorted.length - 10)

/-- The party keys of the `groupby(["id_str","Party"])` result, sorted as
pandas sorts group keys. -/
def leadParties (rows : List LongRow) : List String :=
  sortByB strLeB ((sortedLast10 rows).map (·.party)).dedup

/-- The `Value` entries of one party within the `tail(10)` window. -/
def valuesOf (rows : List LongRow) (p : String) : List ℚ :=
  ((sortedLast10 rows).filter (fun r => r.party = p)).map (·.value)

/-- Embeds `compute_leading_by_country_long` (`build_dashboard.py` lines
147-163) restricted to one country: mean `Value` per party over the last
10 long rows, then `idxmax`. -/
def compute_leading_by_country_long (rows : List LongRow) : Option String :=
  argmaxFirst ((leadParties rows).map fun p => (p, meanQ (valuesOf rows p)))

/-- The ids of the 10 most recent distinct poll events, ordered by
conducted date (part of the spec-side comparison definition below). -/
def specKeepIds (rows : List LongRow) : List ℕ :=
  let pollKeys := (rows.map (fun r => (r.pollId, r.date))).dedup
  ((sortByB (fun a b => Nat.ble a.2 b.2) pollKeys).drop (pollKeys.length - 10)).map
    Prod.fst

/-- The long rows belonging to the 10 most recent distinct polls. -/
def specSel (rows : List LongRow) : List LongRow :=
  rows.filter (fun r => r.pollId ∈ specKeepIds rows)

/-- The parties appearing among the 10 most recent distinct polls. -/
def specParties (rows : List LongRow) : List String :=
  sortByB strLeB ((specSel rows).map (·.party)).dedup

/-- The shares of one party over the 10 most recent distinct polls. -/
def specValues (rows : List LongRow) (p : String) : List ℚ :=
  ((specSel rows).filter (fun r => r.party = p)).map (·.value)

/-- Follows the words of the spec, for comparison with
`compute_leading_by_country_long`: the party whose mean share over the
10 most recent POLLS of the country (10 distinct poll events ordered by
conducted date) is highest. -/
def leading_party_of_last10_polls (rows : List LongRow) : Option String :=
  argmaxFirst ((specParties rows).map fun p => (p, meanQ (specValues rows p)))

/-! ### Shared helper lemmas -/

/-- Evaluation helper: a numeric cell whose discrete parse succeeds. -/
theorem clean_numeric_cell_eq_of_parts (s : String) (p : Bool × ℕ × ℕ × ℕ)
    (h : parseParts (trimL (stripCommon s.toList)) = some p) :
    clean_numeric_cell s = some (ratOfParts p) := by
  unfold clean_numeric_cell toNumeric
  rw [h]
  rfl

/-- Evaluation helper, Austria variant. -/
theorem clean_numeric_cell_AT_eq_of_parts (s : String) (p : Bool × ℕ × ℕ × ℕ)
    (h : parseParts (trimL (stripAT s.toList)) = some p) :
    clean_numeric_cell_AT s = some (ratOfParts p) := by
  unfold clean_numeric_cell_AT toNumeric
  rw [h]
  rfl

/-- Evaluation helper: the UK cleaner on a cell that parses to `q`. -/
theorem clean_numeric_cell_UK_some (s : String) (q : ℚ)
    (h : toNumeric (trimL (stripCommon s.toList)) = some q) :
    clean_numeric_cell_UK s =
      if q.den = 1 then .ok (some q.num)
      else .error "TypeError: cannot safely cast non-equivalent Float64 to Int64" := by
  unfold clean_numeric_cell_UK
  rw [h]

/-- Evaluation helper: the UK cleaner on an unparsable cell. -/
theorem clean_numeric_cell_UK_none (s : String)
    (h : toNumeric (trimL (stripCommon s.toList)) = none) :
    clean_numeric_cell_UK s = .ok none := by
  unfold clean_numeric_cell_UK
  rw [h]

/-- A rational strictly between consecutive integers has denominator
different from 1. -/
theorem den_ne_one_of_between (q : ℚ) (m : ℤ) (h1 : (m : ℚ) < q)
    (h2 : q < ((m : ℚ) + 1)) : q.den ≠ 1 := by
  intro h
  have hn : ((q.num : ℚ)) = q := Rat.coe_int_num_of_den_eq_one h
  rw [← hn] at h1 h2
  have h1' : m < q.num := by exact_mod_cast h1
  have h2' : q.num < m + 1 := by exact_mod_cast h2
  omega

/-- Rounding to a nearest integer: the distance to the
result is at most one half. -/
theorem abs_sub_roundHalfEven (q : ℚ) : |q - (roundHalfEven q : ℚ)| ≤ 1/2 := by
  have h0 : 0 ≤ Int.fract q := Int.fract_nonneg q
  have h1 : Int.fract q < 1 := Int.fract_lt_one q
  have hq : q - (⌊q⌋ : ℚ) = Int.fract q := rfl
  unfold roundHalfEven
  split_ifs with hlt hgt heven
  · rw [abs_of_nonneg (by linarith [Int.fract_nonneg q, hq] : (0:ℚ) ≤ q - (⌊q⌋ : ℚ))]
    linarith [hq]
  · push_cast
    rw [abs_of_nonpos (by linarith : q - ((⌊q⌋ : ℚ) + 1) ≤ 0)]
    linarith
  · have heq : Int.fract q = 1/2 := le_antisymm (not_lt.mp hgt) (not_lt.mp hlt)
    rw [abs_of_nonneg (by linarith : (0:ℚ) ≤ q - (⌊q⌋ : ℚ))]
    linarith
  · have heq : Int.fract q = 1/2 := le_antisymm (not_lt.mp hgt) (not_lt.mp hlt)
    push_cast
    rw [abs_of_nonpos (by linarith : q - ((⌊q⌋ : ℚ) + 1) ≤ 0)]
    linarith

/-! ### Claims -/

/-- C9: for every extracted data row and every header, the Row Normalizer
pads a short row with empty-string cells and truncates a long row so that
after normalization the row length equals the header length; it is a pure
total function (it always returns, and returns exactly the padded,
truncated, or unchanged row). -/
theorem C9_row_normalizer (header : List String) (cells : List String) :
    (normalizeRow cells header.length).length = header.length ∧
    (cells.length < header.length →
      normalizeRow cells header.length =
        cells ++ List.replicate (header.length - cells.length) "") ∧
    (header.length < cells.length →
      normalizeRow cells header.length = cells.take header.length) ∧
    (cells.length = header.length → normalizeRow cells header.length = cells) := by
  unfold normalizeRow
  refine ⟨?_, ?_, ?_, ?_⟩
  · rcases lt_trichotomy cells.length header.length with h | h | h
    · simp only [h, if_true, List.length_append, List.length_replicate]
      omega
    · simp [h]
    · have h2 : ¬ cells.length < header.length := by omega
      simp only [h2, if_false, h, if_true, List.length_take]
      omega
  · intro h
    simp [h]
  · intro h
    have h2 : ¬ cells.length < header.length := by omega
    simp [h2, h]
  · intro h
    simp [h]

/-- C9 witness: concrete padding and truncation. -/
theorem C9_row_normalizer_witness :
    normalizeRow ["x"] (["a", "b", "c"].length) = ["x", "", ""] ∧
    normalizeRow ["x", "y"] (["a"].length) = ["x"] := by
  constructor
  · have h := (C9_row_normalizer ["a", "b", "c"] ["x"]).2.1 (by decide)
    simpa using h
  · have h := (C9_row_normalizer ["a"] ["x", "y"]).2.2.1 (by decide)
    simpa using h

/-- C2: the claim says no per-country `data_cleaner` ever raises on a row
whose fieldwork-date text does not parse.  The Austria, Denmark, Germany
and Italy cleaners indeed coerce such rows to null and continue, but
`Data_Clean_UK.py` lines 18-22 call `pd.to_datetime` with the
`errors="coerce"` argument commented out, so the UK cleaner raises a
`ValueError` and aborts on the first unparsable date: the code contradicts
both the spec and its own inline comment.  This theorem evaluates the
embedding at the failing input. -/
theorem C2_per_row_parse_failure_uk_raises :
    uk_to_datetime [("Early Sep", 2025)] =
      .error "ValueError: time data does not match format %d %b %Y" ∧
    uk_to_datetime [("5-7 Dec", 2025), ("Early Sep", 2025)] =
      .error "ValueError: time data does not match format %d %b %Y" ∧
    date_conducted_AT "Early Sep" 2025 = none ∧
    date_conducted_DE "Early Sep" 2025 = none ∧
    date_conducted_IT "Early Sep" 2025 = none ∧
    clean_numeric_cell "n/a" = none ∧
    clean_numeric_cell_AT "n/a" = none := by
  refine ⟨rfl, rfl, by decide, by decide, by decide, by decide, by decide⟩

/-- C4 counterexample: the claim states that EVERY per-country cleaner
derives the conducted date from the LAST regex day-month token, and in
particular maps fieldwork text "9–11 Dec" with year 2025 to 2025-12-11.
Germany (`Data_Clean_Germany.py` line 25) instead slices characters
`[-11:-5]`, which on "9–11 Dec" yields "9–1" and hence a null date. -/
theorem C4_date_derivation_counterexample :
    date_conducted_DE "9–11 Dec" 2025 = none ∧
    date_conducted_DE "9–11 Dec" 2025 ≠ some (2025, 12, 11) := by
  refine ⟨by decide, by decide⟩

/-- C4 amended: Austria and Denmark derive the conducted date from the
LAST regex day-month token joined with the year ("9–11 Dec" + 2025 gives
2025-12-11, and text with no token gives null); UK and Italy instead take
the last 6 characters of the fieldwork text (which agrees on "9–11 Dec",
but UK raises instead of producing null on unparsable text); Germany
takes characters `[-11:-5]` (expecting texts that end in a 4-digit year),
so "9–11 Dec" yields null there. -/
theorem C4_date_derivation_amended :
    date_conducted_AT "9–11 Dec" 2025 = some (2025, 12, 11) ∧
    date_conducted_AT "1 Dec – 3 Jan" 2026 = some (2026, 1, 3) ∧
    (∀ s : String, findAllDayMon (String.mk (trimL s.toList)) = [] →
      date_conducted_AT s 2025 = none) ∧
    date_conducted_IT "9–11 Dec" 2025 = some (2025, 12, 11) ∧
    uk_to_datetime [("9–11 Dec", 2025)] = .ok [(2025, 12, 11)] ∧
    date_conducted_DE "9–11 Dec" 2025 = none ∧
    date_conducted_DE "17–21 Nov 2025" 2025 = some (2025, 11, 21) := by
  refine ⟨by decide, by decide, ?_, by decide, rfl, by decide, by decide⟩
  intro s h
  unfold date_conducted_AT extract_day_month
  rw [h]
  decide

/-- C4 witness: the no-token branch of the amended claim at a concrete
input. -/
theorem C4_date_derivation_amended_witness :
    date_conducted_AT "Mid October" 2025 = none :=
  C4_date_derivation_amended.2.2.1 "Mid October" (by decide)

/-- C10: `clean_numeric` deletes every occurrence of the separator,
percent and dash characters (plus the question mark for Austria) anywhere
inside a value, not only when the value consists solely of such a
character; consequently "1–2" is coerced to the number 12 rather than to
null, and only values whose remainder after deletion and trimming is not
numeric become null. -/
theorem C10_numeric_strip_everywhere :
    (∀ l : List Char,
      stripCommon l = l.filter (fun c => !(c = ',' || c = '%' || c = '–' || c = '−'))) ∧
    (∀ l : List Char,
      stripAT l =
        l.filter (fun c => !(c = ',' || c = '%' || c = '–' || c = '−' || c = '?'))) ∧
    clean_numeric_cell "1–2" = some 12 ∧
    clean_numeric_cell_AT "1?2" = some 12 ∧
    clean_numeric_cell "%1%2%" = some 12 ∧
    clean_numeric_cell "1,234" = some 1234 ∧
    clean_numeric_cell "–" = none ∧
    clean_numeric_cell_AT "abc" = none := by
  refine ⟨?_, ?_, ?_, ?_, ?_, ?_, by decide, by decide⟩
  · intro l
    simp only [stripCommon, removeChar, List.filter_filter]
    refine List.filter_congr ?_
    intro c _
    by_cases h1 : c = ',' <;> by_cases h2 : c = '%' <;> by_cases h3 : c = '–' <;>
      by_cases h4 : c = '−' <;> simp [h1, h2, h3, h4]
  · intro l
    simp only [stripAT, stripCommon, removeChar, List.filter_filter]
    refine List.filter_congr ?_
    intro c _
    by_cases h1 : c = ',' <;> by_cases h2 : c = '%' <;> by_cases h3 : c = '–' <;>
      by_cases h4 : c = '−' <;> by_cases h5 : c = '?' <;> simp [h1, h2, h3, h4, h5]
  · rw [clean_numeric_cell_eq_of_parts "1–2" (false, 12, 0, 0) (by decide)]
    norm_num [ratOfParts]
  · rw [clean_numeric_cell_AT_eq_of_parts "1?2" (false, 12, 0, 0) (by decide)]
    norm_num [ratOfParts]
  · rw [clean_numeric_cell_eq_of_parts "%1%2%" (false, 12, 0, 0) (by decide)]
    norm_num [ratOfParts]
  · rw [clean_numeric_cell_eq_of_parts "1,234" (false, 1234, 0, 0) (by decide)]
    norm_num [ratOfParts]

/-- C6: a table is selected iff the header text of its first row, joined with
spaces, contains ALL marker substrings of the country ("Fieldwork
date" and "Lead" for Austria, "Abs." plus a nonempty header for Germany,
at least one header cell for Denmark, "Polling firm"/"Fieldwork
date"/"Sample size" for Italy); and when no table matches, the selector
fails with the fatal error of the country and nothing else is returned. -/
theorem C6_table_selector (ts : List BsTable) :
    (∀ t cells, t.firstTrThTexts = some cells →
      (selectedAT t = true ↔
        (infixB "Fieldwork date".toList (joinSp cells) = true ∧
         infixB "Lead".toList (joinSp cells) = true))) ∧
    (∀ t cells, t.firstTrThTexts = some cells →
      (selectedDE t = true ↔
        (cells ≠ [] ∧ infixB "Abs.".toList (joinSp cells) = true))) ∧
    (∀ t cells, t.firstTrThTexts = some cells →
      (selectedDKhdr t = true ↔ cells ≠ [])) ∧
    (∀ t cells, t.firstTrThTexts = some cells →
      (selectedIThdr t = true ↔
        (infixB "Polling firm".toList (joinSp cells) = true ∧
         infixB "Fieldwork date".toList (joinSp cells) = true ∧
         infixB "Sample size".toList (joinSp cells) = true))) ∧
    (∀ t, t.firstTrThTexts = none →
      selectedAT t = false ∧ selectedDE t = false ∧
      selectedDKhdr t = false ∧ selectedIThdr t = false) ∧
    (∀ sel err, scrapeSelect sel err ts = .error err ↔ ∀ t ∈ ts, sel t = false) ∧
    (∀ sel err out, scrapeSelect sel err ts = .ok out →
      ∀ t, (t ∈ out ↔ t ∈ ts ∧ sel t = true)) := by
  have hiff : ∀ sel : BsTable → Bool,
      ((ts.filter sel).isEmpty = true ↔ ∀ t ∈ ts, sel t = false) := by
    intro sel
    rw [List.isEmpty_iff, List.filter_eq_nil_iff]
    constructor
    · intro h t ht
      simpa using h t ht
    · intro h t ht
      simp [h t ht]
  refine ⟨?_, ?_, ?_, ?_, ?_, ?_, ?_⟩
  · rintro ⟨o⟩ cells h
    cases h
    simp [selectedAT, Bool.and_eq_true]
  · rintro ⟨o⟩ cells h
    cases h
    cases cells <;> simp [selectedDE, Bool.and_eq_true]
  · rintro ⟨o⟩ cells h
    cases h
    cases cells <;> simp [selectedDKhdr]
  · rintro ⟨o⟩ cells h
    cases h
    simp [selectedIThdr, Bool.and_eq_true, and_assoc]
  · rintro ⟨o⟩ h
    cases h
    refine ⟨rfl, rfl, rfl, rfl⟩
  · intro sel err
    unfold scrapeSelect
    by_cases hf : (ts.filter sel).isEmpty
    · simp only [hf, if_true]
      simpa using (hiff sel).mp hf
    · simp only [hf, Bool.false_eq_true, if_false]
      constructor
      · intro h
        cases h
      · intro h
        exact absurd ((hiff sel).mpr h) hf
  · intro sel err out hout t
    unfold scrapeSelect at hout
    by_cases hf : (ts.filter sel).isEmpty
    · simp [hf] at hout
    · simp only [hf, Bool.false_eq_true, if_false, Except.ok.injEq] at hout
      subst hout
      exact List.mem_filter

/-- C6 witness: a matching Austria header is selected; a document whose
only table has no first-row headers makes the Germany selector fail
fatally. -/
theorem C6_table_selector_witness :
    selectedAT ⟨some ["Fieldwork date", "Sample size", "Lead"]⟩ = true ∧
    scrapeSelect selectedDE "No national poll tables found." [⟨none⟩] =
      .error "No national poll tables found." := by
  constructor
  · exact ((C6_table_selector []).1 ⟨some ["Fieldwork date", "Sample size", "Lead"]⟩ _
      rfl).mpr ⟨by decide, by decide⟩
  · refine ((C6_table_selector [⟨none⟩]).2.2.2.2.2.1 selectedDE _).mpr ?_
    intro t ht
    have h : t = (⟨none⟩ : BsTable) := by simpa using ht
    subst h
    rfl

/-- C5 counterexample: the claim states every configured numeric column
of every cleaner parses as floating point, with "12.3%" coercing to 12.3.
The UK cleaner (`Data_Clean_UK.py` lines 6-13) instead ends with
`.astype("Int64")`, and pandas refuses to cast the non-integral 12.3, so
"12.3%" raises a `TypeError` there instead of coercing. -/
theorem C5_numeric_coercion_counterexample :
    clean_numeric_cell_UK "12.3%" =
      .error "TypeError: cannot safely cast non-equivalent Float64 to Int64" := by
  have hp : parseParts (trimL (stripCommon "12.3%".toList)) = some (false, 12, 3, 1) := by
    decide
  have hval : ratOfParts (false, 12, 3, 1) = 123/10 := by norm_num [ratOfParts]
  have hden : ((123 : ℚ)/10).den ≠ 1 :=
    den_ne_one_of_between _ 12 (by norm_num) (by norm_num)
  have h9 : toNumeric (trimL (stripCommon "12.3%".toList)) = some (123/10) := by
    unfold toNumeric
    rw [hp, Option.map_some', hval]
  rw [clean_numeric_cell_UK_some _ _ h9, if_neg hden]

/-- C5 amended: the Austria, Denmark, Germany and Italy cleaners strip
separators, percent signs and dash variants (a question mark too for
Austria), trim, and parse as floating point with unparsable values
becoming null; "12.3%" gives 12.3, "–" gives null, "1,234" gives 1234.
The UK cleaner applies the same stripping but stores nullable Int64:
"–" gives null and "1,234" gives the integer 1234, while non-integral
values such as "12.3%" raise instead of coercing. -/
theorem C5_numeric_coercion_amended :
    clean_numeric_cell "12.3%" = some (123/10) ∧
    clean_numeric_cell "–" = none ∧
    clean_numeric_cell "1,234" = some 1234 ∧
    clean_numeric_cell_AT "12.3%" = some (123/10) ∧
    clean_numeric_cell_AT "?" = none ∧
    clean_numeric_cell_UK "–" = .ok none ∧
    clean_numeric_cell_UK "1,234" = .ok (some 1234) ∧
    (∀ s : String, '?' ∉ s.toList → clean_numeric_cell_AT s = clean_numeric_cell s) := by
  refine ⟨?_, by decide, ?_, ?_, by decide,
    clean_numeric_cell_UK_none "–" (by decide), ?_, ?_⟩
  · rw [clean_numeric_cell_eq_of_parts "12.3%" (false, 12, 3, 1) (by decide)]
    norm_num [ratOfParts]
  · rw [clean_numeric_cell_eq_of_parts "1,234" (false, 1234, 0, 0) (by decide)]
    norm_num [ratOfParts]
  · rw [clean_numeric_cell_AT_eq_of_parts "12.3%" (false, 12, 3, 1) (by decide)]
    norm_num [ratOfParts]
  · have hp : parseParts (trimL (stripCommon "1,234".toList)) = some (false, 1234, 0, 0) := by
      decide
    have hval : ratOfParts (false, 1234, 0, 0) = (1234 : ℚ) := by norm_num [ratOfParts]
    have h9 : toNumeric (trimL (stripCommon "1,234".toList)) = some (1234 : ℚ) := by
      unfold toNumeric
      rw [hp, Option.map_some', hval]
    rw [clean_numeric_cell_UK_some _ _ h9]
    norm_num
  · intro s h
    unfold clean_numeric_cell_AT clean_numeric_cell stripAT
    have hmem : ∀ c, c ∈ stripCommon s.toList → c ∈ s.toList := by
      intro c hc
      simp only [stripCommon, removeChar, List.mem_filter] at hc
      tauto
    have hrm : removeChar '?' (stripCommon s.toList) = stripCommon s.toList := by
      refine List.filter_eq_self.mpr ?_
      intro c hc
      have : c ∈ s.toList := hmem c hc
      have : c ≠ '?' := fun he => h (he ▸ this)
      simpa using this
    rw [hrm]

/-- C5 witness: the Austria/common agreement at a question-mark-free
input. -/
theorem C5_numeric_coercion_amended_witness :
    clean_numeric_cell_AT "12.3" = clean_numeric_cell "12.3" :=
  C5_numeric_coercion_amended.2.2.2.2.2.2.2 "12.3" (by decide)

/-- C3 counterexample: the claim states every per-country cleaner stores
the sample size as a rounded nullable integer, but `Data_Clean_Italy.py`
has no `Sample_size` special case: the column only passes through
`clean_numeric` and stays a float, so the non-integral value 1000.4
survives as-is (denominator 5, not an integer). -/
theorem C3_sample_size_counterexample :
    sample_size_cell_IT "1000.4" = some (5002/5) ∧ ((5002 : ℚ)/5).den ≠ 1 := by
  constructor
  · show clean_numeric_cell "1000.4" = some (5002/5)
    rw [clean_numeric_cell_eq_of_parts "1000.4" (false, 1000, 4, 1) (by decide)]
    norm_num [ratOfParts]
  · exact den_ne_one_of_between _ 1000 (by norm_num) (by norm_num)

/-- C3 amended: the Austria, Denmark and Germany cleaners round the
sample size to a nearest integer (within one half; ties to even) and
store it as a nullable integer with unparsable values empty; the Italy
cleaner keeps it as a nullable float without rounding; the UK cleaner
stores a nullable integer without rounding (raising on non-integral
values, see C5). -/
theorem C3_sample_size_amended :
    (∀ s q, clean_numeric_cell s = some q →
      ∃ n : ℤ, sample_size_cell_DE s = some n ∧ |q - (n : ℚ)| ≤ 1/2) ∧
    (∀ s, clean_numeric_cell s = none → sample_size_cell_DE s = none) ∧
    (∀ s q, clean_numeric_cell_AT s = some q →
      ∃ n : ℤ, sample_size_cell_AT s = some n ∧ |q - (n : ℚ)| ≤ 1/2) ∧
    (∀ s, clean_numeric_cell_AT s = none → sample_size_cell_AT s = none) ∧
    (∀ s, sample_size_cell_IT s = clean_numeric_cell s) ∧
    sample_size_cell_DE "1000.4" = some 1000 ∧
    sample_size_cell_DE "1000.6" = some 1001 := by
  refine ⟨?_, ?_, ?_, ?_, fun _ => rfl, ?_, ?_⟩
  · intro s q h
    exact ⟨roundHalfEven q, by simp [sample_size_cell_DE, h], abs_sub_roundHalfEven q⟩
  · intro s h
    simp [sample_size_cell_DE, h]
  · intro s q h
    exact ⟨roundHalfEven q, by simp [sample_size_cell_AT, h], abs_sub_roundHalfEven q⟩
  · intro s h
    simp [sample_size_cell_AT, h]
  · unfold sample_size_cell_DE
    rw [clean_numeric_cell_eq_of_parts "1000.4" (false, 1000, 4, 1) (by decide),
      Option.map_some']
    have hval : ratOfParts (false, 1000, 4, 1) = 5002/5 := by norm_num [ratOfParts]
    rw [hval]
    norm_num [roundHalfEven, Int.fract]
  · unfold sample_size_cell_DE
    rw [clean_numeric_cell_eq_of_parts "1000.6" (false, 1000, 6, 1) (by decide),
      Option.map_some']
    have hval : ratOfParts (false, 1000, 6, 1) = 5003/5 := by norm_num [ratOfParts]
    rw [hval]
    norm_num [roundHalfEven, Int.fract]

/-- C3 witness: the unparsable-to-empty branch at a concrete input. -/
theorem C3_sample_size_amended_witness : sample_size_cell_DE "abc" = none :=
  C3_sample_size_amended.2.1 "abc" (by decide)

/-- In a strictly decreasing list, membership in the first `n` entries is
equivalent to membership with fewer than `n` larger elements. -/
theorem mem_take_iff_count : ∀ (l : List ℕ), l.Pairwise (fun a b => b < a) →
    ∀ (n : ℕ) (y : ℕ),
      (y ∈ l.take n ↔ y ∈ l ∧ (l.filter (fun z => y < z)).length < n) := by
  intro l
  induction l with
  | nil =>
    intro _ n y
    simp
  | cons a t ih =>
    intro hp n y
    rcases List.pairwise_cons.mp hp with ⟨ha, hpt⟩
    cases n with
    | zero => simp
    | succ m =>
      simp only [List.take_succ_cons, List.mem_cons]
      by_cases hya : y = a
      · subst hya
        have hfil : (y :: t).filter (fun z => y < z) = [] := by
          refine List.filter_eq_nil_iff.mpr ?_
          intro z hz
          rcases List.mem_cons.mp hz with rfl | hz'
          · simp
          · have hz2 := ha z hz'
            simp only [decide_eq_true_eq]
            omega
        constructor
        · intro _
          exact ⟨Or.inl rfl, by rw [hfil]; simp⟩
        · intro _
          exact Or.inl rfl
      · by_cases hyt : y ∈ t
        · have hlt : y < a := ha y hyt
          have hfil : ((a :: t).filter (fun z => y < z)).length =
              (t.filter (fun z => y < z)).length + 1 := by
            simp [List.filter_cons, hlt]
          constructor
          · intro h
            rcases h with rfl | h
            · exact absurd rfl hya
            · have h2 := (ih hpt m y).mp h
              refine ⟨Or.inr hyt, ?_⟩
              rw [hfil]
              omega
          · rintro ⟨_, hcnt⟩
            right
            refine (ih hpt m y).mpr ⟨hyt, ?_⟩
            rw [hfil] at hcnt
            omega
        · constructor
          · intro h
            rcases h with rfl | h
            · exact absurd rfl hya
            · exact absurd (List.mem_of_mem_take h) hyt
          · rintro ⟨hmem, _⟩
            rcases hmem with rfl | h
            · exact absurd rfl hya
            · exact absurd h hyt

/-- The sorted distinct-year list of the Year Window Filter is strictly
decreasing. -/
theorem yearsFound_pairwise_gt (rows : List (ℕ × List String)) :
    (yearsFound rows).Pairwise (fun a b => b < a) := by
  have hTot : ∀ a b : ℕ, natGeB a b = true ∨ natGeB b a = true := by
    intro a b
    simp only [natGeB, Nat.ble_eq]
    omega
  have hTrans : ∀ a b c : ℕ,
      natGeB a b = true → natGeB b c = true → natGeB a c = true := by
    intro a b c h1 h2
    simp only [natGeB, Nat.ble_eq] at h1 h2 ⊢
    omega
  have hpair := sortByB_pairwise natGeB hTot hTrans (rows.map Prod.fst).dedup
  have hnodup : (yearsFound rows).Nodup :=
    ((sortByB_perm natGeB _).nodup_iff).mpr (List.nodup_dedup _)
  have hne : (yearsFound rows).Pairwise (fun a b => a ≠ b) := hnodup
  refine (hpair.and hne).imp ?_
  intro a b hab
  rcases hab with ⟨h1, h2⟩
  simp only [natGeB, Nat.ble_eq] at h1
  omega

/-- C7: the Year Window Filter keeps exactly the rows whose year belongs
to the 5 most recent distinct observed years (i.e. rows with fewer than 5
distinct years above their own); with fewer than 5 distinct years all
rows are kept; {2021..2026} keeps {2022..2026}; {2023,2024} keeps
both. -/
theorem C7_year_window_filter (rows : List (ℕ × List String)) :
    (∀ r, r ∈ yearWindowFilter rows ↔
      r ∈ rows ∧ ((rows.map Prod.fst).dedup.filter (fun z => r.1 < z)).length < 5) ∧
    ((rows.map Prod.fst).dedup.length ≤ 5 → yearWindowFilter rows = rows) ∧
    keepYears ([2021, 2022, 2023, 2024, 2025, 2026].map (fun y => (y, ([] : List String)))) =
      [2026, 2025, 2024, 2023, 2022] ∧
    yearWindowFilter [(2023, ["a"]), (2024, ["b"])] = [(2023, ["a"]), (2024, ["b"])] := by
  have hperm : List.Perm (yearsFound rows) (rows.map Prod.fst).dedup :=
    sortByB_perm natGeB (rows.map Prod.fst).dedup
  refine ⟨?_, ?_, by decide, by decide⟩
  · intro r
    unfold yearWindowFilter
    rw [List.mem_filter]
    constructor
    · rintro ⟨hr, hk⟩
      have hk' : r.1 ∈ keepYears rows := by simpa using hk
      have h1 := (mem_take_iff_count (yearsFound rows)
        (yearsFound_pairwise_gt rows) 5 r.1).mp hk'
      have hlen : ((yearsFound rows).filter (fun z => r.1 < z)).length =
          ((rows.map Prod.fst).dedup.filter (fun z => r.1 < z)).length :=
        (hperm.filter _).length_eq
      exact ⟨hr, by omega⟩
    · rintro ⟨hr, hcnt⟩
      refine ⟨hr, ?_⟩
      have hmemy : r.1 ∈ yearsFound rows :=
        hperm.mem_iff.mpr (List.mem_dedup.mpr (List.mem_map.mpr ⟨r, hr, rfl⟩))
      have h2 := (mem_take_iff_count (yearsFound rows)
        (yearsFound_pairwise_gt rows) 5 r.1).mpr
        ⟨hmemy, by rwa [(hperm.filter _).length_eq]⟩
      simpa [keepYears] using h2
  · intro hlen
    unfold yearWindowFilter
    refine List.filter_eq_self.mpr ?_
    intro r hr
    have hmemy : r.1 ∈ yearsFound rows :=
      hperm.mem_iff.mpr (List.mem_dedup.mpr (List.mem_map.mpr ⟨r, hr, rfl⟩))
    have hfull : keepYears rows = yearsFound rows := by
      unfold keepYears
      refine List.take_of_length_le ?_
      rw [hperm.length_eq]
      exact hlen
    simp [hfull, hmemy]

/-- C7 witness: fewer than 5 distinct years keeps every row. -/
theorem C7_year_window_filter_witness :
    yearWindowFilter [(2023, ["a"]), (2024, ["b"]), (2023, ["c"])] =
      [(2023, ["a"]), (2024, ["b"]), (2023, ["c"])] :=
  (C7_year_window_filter _).2.1 (by decide)

/-- Once the Denmark walk has a header, a data row without a derivable
year leaves the state untouched. -/
theorem dkStep_noop (s : DkState) (r : DkRow) (h : List String)
    (hh : s.header = some h) (hy : dkYearOf r = none) : dkStep s r = s := by
  obtain ⟨sh, sf, sa⟩ := s
  simp only at hh
  subst hh
  unfold dkStep
  split_ifs <;> simp_all

/-- Once the Italy walk has a header, every row is processed without an
exception, the header is preserved, and a row without a derivable year is
silently discarded. -/
theorem itStep_header_some (st : ItState) (h : List String)
    (hh : st.header = some h) (r : ItRow) :
    ∃ st2, itStep st r = .ok st2 ∧ st2.header = some h := by
  obtain ⟨sh, sa⟩ := st
  simp only at hh
  subst hh
  unfold itStep
  have h1 : ¬ (r.thTexts ≠ [] ∧ (some h : Option (List String)) = none) := by simp
  rw [if_neg h1]
  by_cases h2 : r.tdTexts = []
  · rw [if_pos h2]
    exact ⟨_, rfl, rfl⟩
  · rw [if_neg h2]
    cases hy : itYearOf r.firstTdSortValue
    · exact ⟨_, rfl, rfl⟩
    · exact ⟨_, rfl, rfl⟩

/-- Folding the Italy walk from a state that already has a header never
raises and preserves the header. -/
theorem itFold_ok (rows : List ItRow) : ∀ (st : ItState) (h : List String),
    st.header = some h →
    ∃ st2, rows.foldlM itStep st = .ok st2 ∧ st2.header = some h := by
  induction rows with
  | nil =>
    intro st h hh
    exact ⟨st, rfl, hh⟩
  | cons r rest ih =>
    intro st h hh
    obtain ⟨st1, hs1, hh1⟩ := itStep_header_some st h hh r
    obtain ⟨st2, hs2, hh2⟩ := ih st1 h hh1
    refine ⟨st2, ?_, hh2⟩
    rw [List.foldlM_cons, hs1]
    simpa using hs2

/-- A selected Italy table begins with a header row. -/
theorem selectedIT_first_row (t : ItTable) (ht : selectedIT t = true) :
    ∃ r0 rs, t.rows = r0 :: rs ∧ r0.thTexts ≠ [] := by
  cases hrows : t.rows with
  | nil =>
    rw [selectedIT, hrows] at ht
    cases ht
  | cons r0 rs =>
    refine ⟨r0, rs, rfl, ?_⟩
    intro hempty
    rw [selectedIT, hrows] at ht
    simp only [List.head?_cons] at ht
    rw [hempty] at ht
    exact absurd ht (by decide)

/-- The Italy extraction over selected tables always succeeds (the
`TypeError` branch is unreachable because selection guarantees a header
row comes first). -/
theorem itExtract_ok (ts : List ItTable) (hne : ts.filter selectedIT ≠ []) :
    ∃ rows, itExtract (ts.filter selectedIT) = .ok rows := by
  cases hsel : ts.filter selectedIT with
  | nil => exact absurd hsel hne
  | cons t0 rest =>
    have ht0 : selectedIT t0 = true := by
      have hmem : t0 ∈ ts.filter selectedIT := by
        rw [hsel]
        exact List.mem_cons_self t0 rest
      exact (List.mem_filter.mp hmem).2
    obtain ⟨r0, rs, hrows, hth⟩ := selectedIT_first_row t0 ht0
    have hstep : itStep ⟨none, []⟩ r0 = .ok ⟨some r0.thTexts, []⟩ := by
      unfold itStep
      rw [if_pos ⟨hth, rfl⟩]
    obtain ⟨st2, h2, _⟩ :=
      itFold_ok (rs ++ ((rest.map (·.rows)).flatten)) ⟨some r0.thTexts, []⟩ r0.thTexts rfl
    have hcons :
        List.foldlM itStep (⟨none, []⟩ : ItState)
            (r0 :: (rs ++ ((rest.map (·.rows)).flatten))) =
          List.foldlM itStep ⟨some r0.thTexts, []⟩ (rs ++ ((rest.map (·.rows)).flatten)) := by
      rw [List.foldlM_cons, hstep]
      rfl
    refine ⟨st2.acc, ?_⟩
    unfold itExtract
    simp only [List.map_cons, List.flatten_cons, hrows, List.cons_append]
    rw [hcons, h2]
    rfl

/-- A Denmark header-only row (selected tables start with one). -/
def c8Hdr : DkRow := ⟨["H1", "H2"], [], ["H1", "H2"], none, none⟩

/-- A Denmark data row whose visible text yields the year 2025. -/
def c8Data : DkRow := ⟨[], ["8 Dec 2025", "42"], ["8 Dec 2025", "42"], none, none⟩

/-- A document with five selected Denmark tables: the first four hold
only header rows, the fifth holds a data row. -/
def c8Tables : List DkTable :=
  [⟨[c8Hdr]⟩, ⟨[c8Hdr]⟩, ⟨[c8Hdr]⟩, ⟨[c8Hdr]⟩, ⟨[c8Hdr, c8Data]⟩]

/-- C8 counterexample: the claim says the fatal no-data error is raised
iff zero data rows survive extraction across ALL selected tables of the
document, but `Scraper_Denmark_Polls.py` line 78 loops over
`national_tables[0:4]` only.  On `c8Tables`, all five tables are
selected and the fifth contains a data row that the row walk would
extract (`dkExtractAll` is the walk over all selected tables), yet the
scraper raises the no-data error because the first four tables have no
data rows. -/
theorem C8_row_extractor_counterexample :
    c8Tables.all selectedDK = true ∧
    c8Tables.length = 5 ∧
    scraperDenmark c8Tables = .error dkNoDataMsg ∧
    dkExtractAll (c8Tables.filter selectedDK) = [(2025, ["8 Dec 2025", "42"])] := by
  refine ⟨by decide, by decide, by rfl, by decide⟩

/-- C8 amended: the Row Extractor never raises because of an individual
row — a data row with no derivable year is silently discarded (Denmark),
and the only Italy per-row hazard (normalizing against a `None` header, a
Python `TypeError`) is unreachable because selection guarantees a header
row comes first; the fatal no-data error is raised if and only if zero
data rows survive extraction across the tables the extractor visits —
ALL selected tables for Italy, but only the FIRST FOUR selected tables
for Denmark (`national_tables[0:4]`). -/
theorem C8_row_extractor :
    (∀ (s : DkState) (r : DkRow) (h : List String),
      s.header = some h → dkYearOf r = none → dkStep s r = s) ∧
    (∀ ts : List DkTable, scraperDenmark ts = .error dkNoDataMsg ↔
      (ts.filter selectedDK ≠ [] ∧ dkExtract (ts.filter selectedDK) = [])) ∧
    (∀ (s : ItState) (r : ItRow) (h : List String),
      s.header = some h → itYearOf r.firstTdSortValue = none → itStep s r = .ok s) ∧
    (∀ ts : List ItTable, scraperItaly ts ≠ .error itTypeErrMsg) ∧
    (∀ ts : List ItTable, scraperItaly ts = .error itNoDataMsg ↔
      (ts.filter selectedIT ≠ [] ∧ itExtract (ts.filter selectedIT) = .ok [])) := by
  refine ⟨dkStep_noop, ?_, ?_, ?_, ?_⟩
  · intro ts
    unfold scraperDenmark
    by_cases hs : (ts.filter selectedDK).isEmpty
    · simp only [hs, if_true]
      constructor
      · intro h
        exact absurd (Except.error.inj h) (by decide)
      · rintro ⟨hne, _⟩
        exact absurd (List.isEmpty_iff.mp hs) hne
    · simp only [hs, Bool.false_eq_true, if_false]
      by_cases hr : (dkExtract (ts.filter selectedDK)).isEmpty
      · simp only [hr, if_true]
        constructor
        · intro _
          refine ⟨?_, List.isEmpty_iff.mp hr⟩
          intro h
          rw [h] at hs
          exact hs rfl
        · intro _
          trivial
      · simp only [hr, Bool.false_eq_true, if_false]
        constructor
        · intro h
          exact absurd h (by simp)
        · rintro ⟨_, hext⟩
          exact absurd (List.isEmpty_iff.mpr hext) hr
  · intro s r h hh hy
    obtain ⟨sh, sa⟩ := s
    simp only at hh
    subst hh
    unfold itStep
    split_ifs <;> simp_all
  · intro ts
    unfold scraperItaly
    by_cases hs : (ts.filter selectedIT).isEmpty
    · simp only [hs, if_true]
      intro h
      exact absurd (Except.error.inj h) (by decide)
    · simp only [hs, Bool.false_eq_true, if_false]
      obtain ⟨rows, hrows⟩ := itExtract_ok ts (fun h => by rw [h] at hs; exact hs rfl)
      rw [hrows]
      by_cases hr : rows.isEmpty
      · simp only [hr, if_true]
        intro h
        exact absurd (Except.error.inj h) (by decide)
      · simp only [hr, Bool.false_eq_true, if_false]
        intro h
        exact absurd h (by simp)
  · intro ts
    unfold scraperItaly
    by_cases hs : (ts.filter selectedIT).isEmpty
    · simp only [hs, if_true]
      constructor
      · intro h
        exact absurd (Except.error.inj h) (by decide)
      · rintro ⟨hne, _⟩
        exact absurd (List.isEmpty_iff.mp hs) hne
    · simp only [hs, Bool.false_eq_true, if_false]
      obtain ⟨rows, hrows⟩ := itExtract_ok ts (fun h => by rw [h] at hs; exact hs rfl)
      rw [hrows]
      by_cases hr : rows.isEmpty
      · simp only [hr, if_true]
        constructor
        · intro _
          refine ⟨fun h => by rw [h] at hs; exact hs rfl, ?_⟩
          rw [List.isEmpty_iff.mp hr]
        · intro _
          trivial
      · simp only [hr, Bool.false_eq_true, if_false]
        constructor
        · intro h
          exact absurd h (by simp)
        · rintro ⟨_, hext⟩
          have hempty : rows = [] := Except.ok.inj hext
          rw [hempty] at hr
          exact absurd rfl hr

/-- C8 witness: a no-year data row leaves the Denmark state unchanged;
a selected Denmark table with only a header row triggers the fatal
no-data error; Italy never raises the per-row `TypeError`. -/
theorem C8_row_extractor_witness :
    dkStep ⟨some ["H"], true, []⟩ ⟨[], ["x"], ["x"], none, none⟩ = ⟨some ["H"], true, []⟩ ∧
    scraperDenmark [⟨[⟨["H"], [], ["H"], none, none⟩]⟩] = .error dkNoDataMsg ∧
    scraperItaly [] ≠ .error itTypeErrMsg := by
  refine ⟨?_, ?_, ?_⟩
  · exact C8_row_extractor.1 ⟨some ["H"], true, []⟩ ⟨[], ["x"], ["x"], none, none⟩ ["H"]
      rfl (by decide)
  · exact (C8_row_extractor.2.1 [⟨[⟨["H"], [], ["H"], none, none⟩]⟩]).mpr
      ⟨by decide, by decide⟩
  · exact C8_row_extractor.2.2.2.1 []

/-- Long-format rows of one party across poll events `0..` with the given
values (poll id doubling as date ordinal), in the party-major order
`melt` produces. -/
def mkLongRows (party : String) (vals : List (ℕ × ℚ)) : List LongRow :=
  vals.map (fun x => ⟨x.1, x.1, party, x.2⟩)

/-- A two-party country with 10 polls (dates 0..9): party A polls 60 in
the older five and 20 in the recent five; party B polls 10 then 30.
Mean over all 10 polls: A = 40, B = 20 — A leads.  Mean over the last 10
LONG rows (= the recent 5 polls only): A = 20, B = 30 — B "leads". -/
def c1Rows : List LongRow :=
  mkLongRows "A"
    [(0, 60), (1, 60), (2, 60), (3, 60), (4, 60),
     (5, 20), (6, 20), (7, 20), (8, 20), (9, 20)] ++
  mkLongRows "B"
    [(0, 10), (1, 10), (2, 10), (3, 10), (4, 10),
     (5, 30), (6, 30), (7, 30), (8, 30), (9, 30)]

/-- C1: the claim says the leading party is the one with the highest mean
share over the 10 most recent polls of the country (10 distinct poll events).
`compute_leading_by_country_long` instead takes `tail(10)` of the
LONG-format frame — the last 10 poll × party observations, covering only
the most recent 10/#parties polls — contradicting both the spec and the
own comment of the function ("last 10 polls, mean").  On `c1Rows` the code
picks "B" while the mean over the 10 most recent polls picks "A". -/
theorem C1_leading_party_divergence :
    compute_leading_by_country_long c1Rows = some "B" ∧
    leading_party_of_last10_polls c1Rows = some "A" := by
  constructor
  · have hp : leadParties c1Rows = ["A", "B"] := by decide
    have hA : valuesOf c1Rows "A" = [20, 20, 20, 20, 20] := by decide
    have hB : valuesOf c1Rows "B" = [30, 30, 30, 30, 30] := by decide
    have hmA : meanQ [20, 20, 20, 20, 20] = 20 := by norm_num [meanQ]
    have hmB : meanQ [30, 30, 30, 30, 30] = 30 := by norm_num [meanQ]
    rw [compute_leading_by_country_long, hp]
    simp only [List.map, hA, hB, hmA, hmB]
    norm_num [argmaxFirst]
  · have hp : specParties c1Rows = ["A", "B"] := by decide
    have hA : specValues c1Rows "A" =
        [60, 60, 60, 60, 60, 20, 20, 20, 20, 20] := by decide
    have hB : specValues c1Rows "B" =
        [10, 10, 10, 10, 10, 30, 30, 30, 30, 30] := by decide
    have hmA : meanQ [60, 60, 60, 60, 60, 20, 20, 20, 20, 20] = 40 := by
      norm_num [meanQ]
    have hmB : meanQ [10, 10, 10, 10, 10, 30, 30, 30, 30, 30] = 20 := by
      norm_num [meanQ]
    rw [leading_party_of_last10_polls, hp]
    simp only [List.map, hA, hB, hmA, hmB]
    norm_num [argmaxFirst]

end PollsVerify
